import Mathlib

/-!
Shallow embedding of the shapefile ingestion pipeline of
`backend/enhanced_seed.py` and `backend/seed_import.py`.

Conventions used throughout:
* PostgreSQL `numeric` values are modelled as `ℚ`; timestamps (`NOW()`) as `Nat`.
* Geometries are abstract: a `Geom` records exactly the observations the
  pipeline makes of a geometry value (`ST_IsValid` / shapely `is_valid`,
  `ST_Area` on geometry and on geography, the bounding box).  The persisted
  transform `ST_Multi(ST_Force2D(g))` is the identity on this abstraction.
* A `jsonb` object is an association list `List (String × Option String)`;
  a key bound to `none` models a JSON `null`, so `attrText` is the `->>`
  operator.
* A SQL table is a `List` of rows in physical order.  The statement
  `INSERT ... ON CONFLICT (plot_code) DO UPDATE` is resolved row by row
  (`upsert_row`); the `WHERE NOT EXISTS` insert of `seed_import.py` checks
  against the statement snapshot (`insert_skip_conflict`).
-/

deriving instance DecidableEq for Except

namespace LandHub

/-- PostgreSQL `LPAD(s, n, fill)`: pad on the left up to length `n`; a string
already longer than `n` is truncated on the right. -/
def lpad (s : String) (n : Nat) (fill : String) : String :=
  if n ≤ s.length then s.take n
  else (String.join (List.replicate n fill)).take (n - s.length) ++ s

/-- ASCII lower-casing of one character; the identifiers the pipeline
lower-cases (`str.lower()` in python) are all ASCII. -/
def lowerChar (c : Char) : Char :=
  if 'A' ≤ c ∧ c ≤ 'Z' then Char.ofNat (c.toNat + 32) else c

/-- ASCII lower-casing of a string. -/
def lowerString (s : String) : String := String.mk (s.data.map lowerChar)

/-- Accumulating decimal digit parser used by `parseRat`. -/
def parseDigits : List Char → Nat → Option Nat
  | [], acc => some acc
  | c :: cs, acc => if c.isDigit then parseDigits cs (acc * 10 + (c.toNat - 48)) else none

/-- Model of `CAST(s AS NUMERIC)` for plain decimal literals (the only
spellings any claim exercises).  A decimal `n.f` with `k` fraction digits
denotes the rational `(n * 10^k + f) / 10^k`, built with `mkRat` so that the
kernel can evaluate it. -/
def parseRat (s : String) : Option ℚ :=
  let signed :=
    match s.toList with
    | '-' :: rest => (true, rest)
    | l => (false, l)
  let mk (q : ℚ) : ℚ := if signed.1 then -q else q
  match signed.2.span (fun c => c != '.') with
  | (ip, []) =>
      if ip.isEmpty then none else (parseDigits ip 0).map (fun n => mk n)
  | (ip, _ :: fp) =>
      if ip.isEmpty && fp.isEmpty then none
      else
        match parseDigits ip 0, parseDigits fp 0 with
        | some n, some f => some (mk (mkRat (n * 10 ^ fp.length + f) (10 ^ fp.length)))
        | _, _ => none

/-- Exact rational division by an integer constant, written with `mkRat` so
that the kernel can evaluate it; `qdivNat_eq_div` identifies it with `· / n`. -/
def qdivNat (q : ℚ) (n : Nat) : ℚ := mkRat q.num (q.den * n)

/-- PostgreSQL `ROUND(q, 4)`, that is `⌊q * 10^4 + 1/2⌋ / 10^4`, written with
integer arithmetic so that the kernel can evaluate it; `round4_eq_floor`
identifies it with the floor form.  The pipeline only rounds nonnegative
areas, where round-half-away-from-zero and round-half-up coincide. -/
def round4 (q : ℚ) : ℚ :=
  mkRat ((q.num * 20000 + (q.den : Int)) / (2 * (q.den : Int))) 10000

/-- The `jsonb` operator `attributes ->> key`: `none` both for an absent key
and for a key bound to JSON `null`. -/
def attrText (attrs : List (String × Option String)) (k : String) : Option String :=
  (attrs.lookup k).join

/-- Bounding box, as produced by shapely `geom.bounds`
(`(minx, miny, maxx, maxy)`). -/
structure Bounds where
  minx : ℚ
  miny : ℚ
  maxx : ℚ
  maxy : ℚ
  deriving DecidableEq

/-- Abstract geometry value: exactly the observations the pipeline makes. -/
structure Geom where
  valid : Bool
  planar_area : ℚ
  geodesic_area : ℚ
  bounds : Bounds
  deriving DecidableEq

/-- One row of the temporary staging table created by
`import_with_python_fallback`: `geometry` (nullable), `attributes` jsonb and
`original_fid`.  The serial `id` column is the list position, so list order
is `ORDER BY id` order. -/
structure StagedRow where
  geometry : Option Geom
  attributes : List (String × Option String)
  original_fid : Nat
  deriving DecidableEq

/-- One row of the `land_plots` table (`ensure_database_schema`). -/
structure LandPlot where
  plot_code : String
  status : String
  area_hectares : ℚ
  district : String
  ward : String
  village : String
  dataset_name : String
  geometry : Geom
  attributes : List (String × Option String)
  created_at : Nat
  updated_at : Nat
  deriving DecidableEq

/-- Pair the list elements with consecutive numbers starting at `start`
(`ROW_NUMBER()`, python `enumerate`). -/
def withRowNumbers (start : Nat) : List α → List (Nat × α)
  | [] => []
  | a :: as => (start, a) :: withRowNumbers (start + 1) as

/-- The plot-code keys probed by the jsonb branch of `process_imported_data`,
in `COALESCE` order. -/
def plot_code_candidates : List String :=
  ["plot_code", "PLOT_CODE", "plotcode", "code", "PLOT_NO", "PLOTNUM"]

/-- The expression `COALESCE(attributes->>'plot_code', ...,
'<ds>_' || LPAD(seq::text, 4, '0'))` of the jsonb branch of
`process_imported_data`. -/
def derive_plot_code (ds : String) (attrs : List (String × Option String)) (seq : Nat) : String :=
  match plot_code_candidates.findSome? (attrText attrs) with
  | some v => v
  | none => ds ++ "_" ++ lpad (toString seq) 4 "0"

/-- The area keys probed by the jsonb branch of `process_imported_data`, in
`COALESCE` order. -/
def area_candidates : List String := ["area_ha", "AREA_HA", "area", "AREA", "hectares"]

/-- `CAST(NULLIF(attributes->>k, '') AS NUMERIC)` for one candidate key. -/
def area_from_key (attrs : List (String × Option String)) (k : String) : Option ℚ :=
  match attrText attrs k with
  | none => none
  | some v => if v = "" then none else parseRat v

/-- The area `COALESCE(..., ROUND(CAST(ST_Area(geography(geometry)) / 10000 AS
NUMERIC), 4))` of the jsonb branch of `process_imported_data`. -/
def derive_area_hectares (attrs : List (String × Option String)) (g : Geom) : ℚ :=
  match area_candidates.findSome? (area_from_key attrs) with
  | some q => q
  | none => round4 (qdivNat g.geodesic_area 10000)

/-- The staging filter `WHERE geometry IS NOT NULL AND ST_IsValid(geometry)
AND ST_Area(geometry) > 0` of `process_imported_data`. -/
def passes_filter (r : StagedRow) : Bool :=
  match r.geometry with
  | some g => g.valid && decide (0 < g.planar_area)
  | none => false

/-- Project the geometry out of a staged row; only ever applied to rows that
passed `passes_filter`, whose geometry is non-null. -/
def geom_of (r : StagedRow) : Geom := r.geometry.getD ⟨true, 0, 0, ⟨0, 0, 0, 0⟩⟩

/-- jsonb `||`: keys of the right operand win on collision. -/
def jsonb_concat (a b : List (String × Option String)) : List (String × Option String) :=
  a.filter (fun kv => !(b.any (fun kv2 => kv2.1 == kv.1))) ++ b

/-- The provenance object `jsonb_build_object('import_method',
'python_fallback', 'import_timestamp', NOW(), 'original_fid', original_fid)`. -/
def fallback_provenance (now fid : Nat) : List (String × Option String) :=
  [("import_method", some "python_fallback"),
   ("import_timestamp", some (toString now)),
   ("original_fid", some (toString fid))]

/-- The rows produced by the `INSERT ... SELECT` of the jsonb branch of
`process_imported_data`: staged rows surviving the `WHERE` filter, in `id`
order, numbered by `ROW_NUMBER() OVER (ORDER BY id)` (window functions are
evaluated after the `WHERE` clause). -/
def insert_select_rows (ds district ward village : String) (now : Nat)
    (staged : List StagedRow) : List LandPlot :=
  (withRowNumbers 1 (staged.filter passes_filter)).map (fun p =>
    { plot_code := derive_plot_code ds p.2.attributes p.1
      status := "available"
      area_hectares := derive_area_hectares p.2.attributes (geom_of p.2)
      district := district
      ward := ward
      village := village
      dataset_name := ds
      geometry := geom_of p.2
      attributes := jsonb_concat p.2.attributes (fallback_provenance now p.2.original_fid)
      created_at := now
      updated_at := now })

/-- Does the table already hold a row with this plot code? -/
def has_code (table : List LandPlot) (c : String) : Bool :=
  table.any (fun q => q.plot_code == c)

/-- `ON CONFLICT (plot_code) DO UPDATE SET updated_at = NOW(), attributes =
EXCLUDED.attributes`, resolved for one proposed row. -/
def upsert_row (now : Nat) (table : List LandPlot) (p : LandPlot) : List LandPlot :=
  if has_code table p.plot_code then
    table.map (fun q =>
      if q.plot_code == p.plot_code then
        { q with attributes := p.attributes, updated_at := now }
      else q)
  else table ++ [p]

/-- The jsonb branch of `EnhancedShapefileProcessor.process_imported_data`:
build the insert rows from the staging table, then upsert them into
`land_plots`.  This is the effect of the `INSERT ... ON CONFLICT DO UPDATE`
statement when it succeeds; the failure path PostgreSQL takes when the same
row would be affected twice within the one statement is modelled by
`process_imported_data_stmt`. -/
def process_imported_data (ds district ward village : String) (now : Nat)
    (staged : List StagedRow) (table : List LandPlot) : List LandPlot :=
  (insert_select_rows ds district ward village now staged).foldl (upsert_row now) table

/-- The single `INSERT ... ON CONFLICT (plot_code) DO UPDATE` statement with
PostgreSQL's cardinality rule: it is an error for one command to affect the
same row twice, which happens exactly when two proposed rows share a plot
code (whether both conflict with one existing row, or the second conflicts
with the row the first just inserted).  On that error the `except` handler of
`process_imported_data` rolls back and re-raises, so the table is left
unchanged and the import fails. -/
def process_imported_data_stmt (ds district ward village : String) (now : Nat)
    (staged : List StagedRow) (table : List LandPlot) : Except String (List LandPlot) :=
  let rows := insert_select_rows ds district ward village now staged
  if (rows.map LandPlot.plot_code).Nodup then .ok (rows.foldl (upsert_row now) table)
  else .error "ON CONFLICT DO UPDATE command cannot affect row a second time"

/-- `process_imported_data` runs against a `land_plots` table carrying the
`CHECK (area_hectares > 0)` constraint of `ensure_database_schema`: a
violating proposed row makes the whole statement fail and roll back. -/
def process_imported_data_checked (ds district ward village : String) (now : Nat)
    (staged : List StagedRow) (table : List LandPlot) : Except String (List LandPlot) :=
  let rows := insert_select_rows ds district ward village now staged
  if rows.all (fun p => decide (0 < p.area_hectares)) then
    .ok (rows.foldl (upsert_row now) table)
  else
    .error "new row for relation land_plots violates check constraint"

/-- One row of the `shapefile_imports` ledger table. -/
structure ImportRecord where
  dataset_name : String
  prj : Option String
  cpg : Option String
  dbf_schema : List (String × String)
  file_hashes : List (String × String)
  feature_count : Nat
  bbox : Option String
  imported_at : Nat
  deriving DecidableEq

/-- `INSERT INTO shapefile_imports ... ON CONFLICT (dataset_name) DO UPDATE`:
every payload column is replaced and `imported_at` refreshed. -/
def upsert_ledger (ledger : List ImportRecord) (rec : ImportRecord) : List ImportRecord :=
  if ledger.any (fun r => r.dataset_name == rec.dataset_name) then
    ledger.map (fun r => if r.dataset_name == rec.dataset_name then rec else r)
  else ledger ++ [rec]

/-- `EnhancedShapefileProcessor.create_import_record`: upsert one provenance
row keyed by dataset name.  File hashes, projection and encoding text, the
dbf schema and the bbox come from the file system and the metadata tool and
are taken here as parameters. -/
def create_import_record (ledger : List ImportRecord) (ds : String)
    (prj cpg : Option String) (dbf_schema file_hashes : List (String × String))
    (bbox : Option String) (feature_count now : Nat) : List ImportRecord :=
  upsert_ledger ledger ⟨ds, prj, cpg, dbf_schema, file_hashes, feature_count, bbox, now⟩

/-- The count returned by `process_imported_data`: `SELECT COUNT(*) FROM
land_plots WHERE dataset_name = :dataset_name` after the upsert. -/
def dataset_count (table : List LandPlot) (ds : String) : Nat :=
  (table.filter (fun p => p.dataset_name == ds)).length

/-- Steps 5 and 6 of `EnhancedShapefileProcessor.process_shapefile`: process
the staged data, then write the import record with the count that
`process_imported_data` returned. -/
def run_import (ds district ward village : String) (now : Nat) (staged : List StagedRow)
    (prj cpg : Option String) (dbf_schema file_hashes : List (String × String))
    (bbox : Option String) (table : List LandPlot) (ledger : List ImportRecord) :
    List LandPlot × List ImportRecord :=
  let table2 := process_imported_data ds district ward village now staged table
  let cnt := dataset_count table2 ds
  (table2, create_import_record ledger ds prj cpg dbf_schema file_hashes bbox cnt now)

/-- Look a dataset's `feature_count` up in the ledger. -/
def ledger_feature_count (ledger : List ImportRecord) (ds : String) : Option Nat :=
  (ledger.find? (fun r => r.dataset_name == ds)).map (fun r => r.feature_count)

/-- How one invocation of the external `ogr2ogr` process ends, as observed by
`import_with_ogr2ogr`: exit code 0 together with the row count found in the
temporary table, a non-zero exit code, the 300 s timeout, or an exception
inside the `try` block (for instance a failing `Popen`). -/
inductive Ogr2ogrOutcome
  | completed (rowCount : Nat)
  | nonzeroExit
  | timedOut
  | raised
  deriving DecidableEq

/-- `EnhancedShapefileProcessor.import_with_ogr2ogr`: every outcome is turned
into a boolean (`.ok`), never into a raised error; exit code 0 with zero rows
in the temporary table also yields `False`. -/
def import_with_ogr2ogr : Ogr2ogrOutcome → Except String Bool
  | .completed n => .ok (decide (n ≠ 0))
  | .nonzeroExit => .ok false
  | .timedOut => .ok false
  | .raised => .ok false

/-- Did the bridge strategy succeed?  `check_gdal_availability` gates whether
`import_with_ogr2ogr` runs at all (an absent tool means the bridge is never
tried and counts as failed). -/
def bridge_succeeds (gdalAvailable : Bool) (o : Ogr2ogrOutcome) : Bool :=
  gdalAvailable &&
    (match import_with_ogr2ogr o with
     | .ok b => b
     | .error _ => false)

/-- Which loading strategy produced the staging table. -/
inductive ImportStrategy
  | bridge
  | fallback
  deriving DecidableEq

/-- Step 4 of `process_shapefile`: try `import_with_ogr2ogr` when GDAL is
available, fall back to `import_with_python_fallback` otherwise or on
failure, and raise only when both strategies have failed. -/
def load_staging (gdalAvailable : Bool) (o : Ogr2ogrOutcome) (fallbackOk : Bool) :
    Except String ImportStrategy :=
  if bridge_succeeds gdalAvailable o then .ok .bridge
  else if fallbackOk then .ok .fallback
  else .error "Both ogr2ogr and Python fallback import methods failed"

/-- Presence and readability of one shapefile sidecar file; `readable` is the
outcome of the 1-byte test read and is only meaningful when `present`. -/
structure CompInfo where
  present : Bool
  readable : Bool
  deriving DecidableEq, Fintype

/-- The five sidecar files sharing the shapefile's base path. -/
structure ShapefileComponents where
  shp : CompInfo
  shx : CompInfo
  dbf : CompInfo
  prj : CompInfo
  cpg : CompInfo
  deriving DecidableEq, Fintype

/-- The `components` dictionary of `validate_shapefile_components`, in its
insertion order. -/
def componentList (fs : ShapefileComponents) : List (String × CompInfo) :=
  [("shp", fs.shp), ("shx", fs.shx), ("dbf", fs.dbf), ("prj", fs.prj), ("cpg", fs.cpg)]

/-- The `required = ['shp', 'shx', 'dbf']` list of
`validate_shapefile_components`. -/
def requiredComponents : List String := ["shp", "shx", "dbf"]

/-- The `valid` flag computed by `validate_shapefile_components`: it is
cleared when a present component fails the test read, and when a required
component is absent. -/
def validation_valid (fs : ShapefileComponents) : Bool :=
  (componentList fs).all (fun kc =>
    (!(kc.2.present && !kc.2.readable)) &&
    (!(requiredComponents.contains kc.1 && !kc.2.present)))

/-- The `missing_required` list of `validate_shapefile_components`: required
components that are absent, in component order. -/
def missing_required (fs : ShapefileComponents) : List String :=
  ((componentList fs).filter
    (fun kc => requiredComponents.contains kc.1 && !kc.2.present)).map (fun kc => kc.1)

/-- Step 1 of `process_shapefile`: when the `valid` flag is cleared, raise an
error carrying `missing_required`; otherwise continue. -/
def validation_error (fs : ShapefileComponents) : Option (List String) :=
  if validation_valid fs then none else some (missing_required fs)

/-- Geometry type of a feature as read by fiona, after the optional
reprojection (`geom.geom_type`). -/
inductive GeomKind
  | polygon
  | multiPolygon
  | otherKind
  deriving DecidableEq

/-- One source feature as seen by `import_with_python_fallback`: its geometry
type, the geometry after `shape`/`transform` (with its validity flag), the
result of the `buffer(0)` repair, and the attribute dictionary. -/
structure FallbackFeature where
  kind : GeomKind
  geom : Geom
  repaired : Geom
  props : List (String × Option String)
  deriving DecidableEq

/-- The Tanzania sanity envelope (`TANZANIA_BOUNDS`-shaped configuration). -/
structure Envelope where
  north : ℚ
  south : ℚ
  east : ℚ
  west : ℚ
  deriving DecidableEq

/-- The bounds test of `import_with_python_fallback`:
`west <= minx <= east and west <= maxx <= east and south <= miny <= north
and south <= maxy <= north`. -/
def in_bounds (env : Envelope) (b : Bounds) : Bool :=
  decide (env.west ≤ b.minx) && decide (b.minx ≤ env.east) &&
  decide (env.west ≤ b.maxx) && decide (b.maxx ≤ env.east) &&
  decide (env.south ≤ b.miny) && decide (b.miny ≤ env.north) &&
  decide (env.south ≤ b.maxy) && decide (b.maxy ≤ env.north)

/-- Per-feature geometry handling of the fallback loop: reject unsupported
geometry types, keep valid geometries, keep repaired geometries when the
zero-width buffer fixes them, reject the rest.  A bare polygon is promoted
to multi-polygon, which is the identity on the abstraction. -/
def stage_feature (f : FallbackFeature) : Option Geom :=
  match f.kind with
  | .otherKind => none
  | _ =>
      if f.geom.valid then some f.geom
      else if f.repaired.valid then some f.repaired
      else none

/-- The feature loop of `import_with_python_fallback`, started at feature
index `i`: returns the staged rows, the error count, and the indices of
features whose bounding box fell outside the envelope (those are only
warned about). -/
def stage_fallback_from (env : Envelope) : Nat → List FallbackFeature →
    List StagedRow × Nat × List Nat
  | _, [] => ([], 0, [])
  | i, f :: fs =>
      let rest := stage_fallback_from env (i + 1) fs
      match stage_feature f with
      | none => (rest.1, rest.2.1 + 1, rest.2.2)
      | some g =>
          (⟨some g, f.props, i⟩ :: rest.1, rest.2.1,
           (if in_bounds env g.bounds then [] else [i]) ++ rest.2.2)

/-- The feature loop of `import_with_python_fallback` over the whole source
(`enumerate` starts at 0). -/
def stage_fallback (env : Envelope) (feats : List FallbackFeature) :
    List StagedRow × Nat × List Nat :=
  stage_fallback_from env 0 feats

/-- One row of the temporary table in the `ogr2ogr`-shaped staging used by
`seed_import.normalize_into_land_plots`: one column per original field
(a `none` value is SQL `NULL`) plus the geometry. -/
structure ColRow where
  vals : List (String × Option String)
  geometry : Geom
  deriving DecidableEq

/-- The plot-code column-name candidates of
`seed_import.normalize_into_land_plots`. -/
def seed_code_candidates : List String := ["plot_code", "plotid", "code", "plot_no", "plotnum"]

/-- The `attr_key` search of `normalize_into_land_plots`: the first column
(in column order) whose lower-cased name is a candidate. -/
def find_attr_key (attrCols : List String) : Option String :=
  attrCols.find? (fun c => seed_code_candidates.contains (lowerString c))

/-- The sort key of `ROW_NUMBER() OVER (ORDER BY <first attribute column>)`
in `normalize_into_land_plots`; with no attribute columns the ordering is by
the geometry column, modelled as a constant key (staging order kept). -/
def seed_sort_key (attrCols : List String) (r : ColRow) : Option String :=
  match attrCols with
  | [] => none
  | c :: _ => (r.vals.lookup c).join

/-- Ascending comparison with `NULLS LAST`, PostgreSQL's default. -/
def opt_le (a b : Option String) : Bool :=
  match a, b with
  | some x, some y => decide (x ≤ y)
  | some _, none => true
  | none, some _ => false
  | none, none => true

/-- Insert into a list sorted by `opt_le` on `key`. -/
def insert_by_key (key : α → Option String) (a : α) : List α → List α
  | [] => [a]
  | b :: bs => if opt_le (key b) (key a) then b :: insert_by_key key a bs else a :: b :: bs

/-- Deterministic sort realising `ORDER BY`; PostgreSQL leaves the relative
order of equal keys unspecified, and the model fixes one such order. -/
def sort_by_key (key : α → Option String) : List α → List α
  | [] => []
  | a :: as => insert_by_key key a (sort_by_key key as)

/-- The per-row plot code of `normalize_into_land_plots`:
`COALESCE(attr_key, 'MBY-' || LPAD(row_number::text, 4, '0'))`; note the
fixed `MBY-` prefix and the absence of `NULLIF`, so an empty string wins. -/
def seed_plot_code (attrKey : Option String) (r : ColRow) (seq : Nat) : String :=
  match attrKey with
  | some k =>
      match (r.vals.lookup k).join with
      | some v => v
      | none => "MBY-" ++ lpad (toString seq) 4 "0"
  | none => "MBY-" ++ lpad (toString seq) 4 "0"

/-- `jsonb_strip_nulls(jsonb_build_object(c1, c1, ...))` over the attribute
columns: null values dropped. -/
def seed_attributes (attrCols : List String) (r : ColRow) : List (String × Option String) :=
  attrCols.filterMap (fun c => ((r.vals.lookup c).join).map (fun v => (c, some v)))

/-- The rows proposed for insertion by `normalize_into_land_plots` (column
path): numbered in sort-key order, with the geodesic area always computed
(this path probes no area field). -/
def seed_insert_rows (attrCols : List String) (ds district ward village : String)
    (now : Nat) (tmpRows : List ColRow) : List LandPlot :=
  (withRowNumbers 1 (sort_by_key (seed_sort_key attrCols) tmpRows)).map (fun p =>
    { plot_code := seed_plot_code (find_attr_key attrCols) p.2 p.1
      status := "available"
      area_hectares := round4 (qdivNat p.2.geometry.geodesic_area 10000)
      district := district
      ward := ward
      village := village
      dataset_name := ds
      geometry := p.2.geometry
      attributes := seed_attributes attrCols p.2
      created_at := now
      updated_at := now })

/-- `WHERE NOT EXISTS (SELECT 1 FROM land_plots lp WHERE lp.plot_code =
s.plot_code_raw)`: the skip-on-conflict insert, evaluated against the
statement snapshot of `land_plots`. -/
def insert_skip_conflict (table : List LandPlot) (rows : List LandPlot) : List LandPlot :=
  table ++ rows.filter (fun r => !(has_code table r.plot_code))

/-- `seed_import.normalize_into_land_plots` (column path), the
skip-on-conflict policy. -/
def normalize_into_land_plots (attrCols : List String) (ds district ward village : String)
    (now : Nat) (tmpRows : List ColRow) (table : List LandPlot) : List LandPlot :=
  insert_skip_conflict table (seed_insert_rows attrCols ds district ward village now tmpRows)

/-- The plot codes proposed by one run of the jsonb insert, in statement
order; they depend only on the dataset name and the staged data, never on
the clock or the current table. -/
def import_codes (ds : String) (staged : List StagedRow) : List String :=
  (withRowNumbers 1 (staged.filter passes_filter)).map (fun p => derive_plot_code ds p.2.attributes p.1)

/-- The plot codes proposed by one run of the seed-path insert. -/
def seed_codes (attrCols : List String) (tmpRows : List ColRow) : List String :=
  (withRowNumbers 1 (sort_by_key (seed_sort_key attrCols) tmpRows)).map
    (fun p => seed_plot_code (find_attr_key attrCols) p.2 p.1)

/-- All fields of a `land_plots` row except `attributes` and `updated_at`:
the conflict arm `DO UPDATE SET updated_at = NOW(), attributes =
EXCLUDED.attributes` may touch nothing outside this frame. -/
def frame_eq (p q : LandPlot) : Prop :=
  q.plot_code = p.plot_code ∧ q.status = p.status ∧ q.area_hectares = p.area_hectares ∧
  q.district = p.district ∧ q.ward = p.ward ∧ q.village = p.village ∧
  q.dataset_name = p.dataset_name ∧ q.geometry = p.geometry ∧ q.created_at = p.created_at

/-- The plot-code derivation the specification describes: probe the candidate
list case-insensitively and take the first candidate some attribute key
matches with a non-empty value; otherwise synthesize from the dataset name
and the zero-padded sequence number.  (Stated from the specification's words,
for comparison against `derive_plot_code`, which is read off the source.) -/
def spec_plot_code (ds : String) (attrs : List (String × Option String)) (seq : Nat) : String :=
  match plot_code_candidates.findSome? (fun c =>
    attrs.findSome? (fun kv =>
      if lowerString kv.1 == lowerString c then
        match kv.2 with
        | some v => if v = "" then none else some v
        | none => none
      else none)) with
  | some v => v
  | none => ds ++ "_" ++ lpad (toString seq) 4 "0"

/-- The validation-failure condition the specification describes: a mandatory
component is missing or unreadable.  (Stated from the specification's words,
for comparison against `validation_valid`, which is read off the source.) -/
def spec_mandatory_problem (fs : ShapefileComponents) : Bool :=
  (componentList fs).any (fun kc =>
    requiredComponents.contains kc.1 && (!kc.2.present || !kc.2.readable))

/-- Is a required component absent? -/
def some_mandatory_missing (fs : ShapefileComponents) : Bool :=
  (componentList fs).any (fun kc => requiredComponents.contains kc.1 && !kc.2.present)

/-- Is some component present but failing the test read? -/
def some_present_unreadable (fs : ShapefileComponents) : Bool :=
  (componentList fs).any (fun kc => kc.2.present && !kc.2.readable)

/-! ### Concrete inputs used by counterexamples and witnesses -/

/-- A staged feature whose geometry is invalid: rejected by the staging
filter. -/
def invalid_staged : StagedRow := ⟨some ⟨false, 1, 1, ⟨0, 0, 0, 0⟩⟩, [], 0⟩

/-- A staged feature with a valid geometry of positive planar area, geodesic
area 20000 m², and no attributes. -/
def valid_staged : StagedRow := ⟨some ⟨true, 1, 20000, ⟨0, 0, 0, 0⟩⟩, [], 1⟩

/-- A pre-existing `land_plots` row with plot code `A1`. -/
def existing_plot : LandPlot :=
  { plot_code := "A1", status := "taken", area_hectares := 3, district := "D0", ward := "W0",
    village := "V0", dataset_name := "old", geometry := ⟨true, 2, 30000, ⟨0, 0, 0, 0⟩⟩,
    attributes := [("k", some "v")], created_at := 1, updated_at := 1 }

/-- A staged feature carrying the plot code `A1`, colliding with
`existing_plot`. -/
def conflicting_staged : StagedRow :=
  ⟨some ⟨true, 1, 20000, ⟨0, 0, 0, 0⟩⟩, [("plot_code", some "A1")], 0⟩

/-- Three valid staged features none of whose attribute keys is a plot-code
candidate. -/
def survey_staged : List StagedRow :=
  [⟨some ⟨true, 1, 10000, ⟨0, 0, 0, 0⟩⟩, [("name", some "x")], 0⟩,
   ⟨some ⟨true, 1, 20000, ⟨0, 0, 0, 0⟩⟩, [], 1⟩,
   ⟨some ⟨true, 1, 30000, ⟨0, 0, 0, 0⟩⟩, [("owner", none)], 2⟩]

/-- A valid staged feature with no attributes at all. -/
def plain_staged : StagedRow := ⟨some ⟨true, 1, 10000, ⟨0, 0, 0, 0⟩⟩, [], 0⟩

/-- One row of an `ogr2ogr`-shaped temporary table with a single attribute
column `name`. -/
def seed_tmp_rows : List ColRow := [⟨[("name", some "a")], ⟨true, 1, 20000, ⟨0, 0, 0, 0⟩⟩⟩]

/-- The `land_plots` row produced by importing `valid_staged` into an empty
table as dataset `d` at time 7. -/
def c8_result_plot : LandPlot :=
  { plot_code := "d_0001", status := "available", area_hectares := 2, district := "D",
    ward := "W", village := "V", dataset_name := "d",
    geometry := ⟨true, 1, 20000, ⟨0, 0, 0, 0⟩⟩,
    attributes := fallback_provenance 7 1, created_at := 7, updated_at := 7 }

/-- The `land_plots` row produced by importing `valid_staged` at time 3 and
re-importing it at time 4: only attributes and updated_at moved. -/
def c3_plot : LandPlot :=
  { plot_code := "d_0001", status := "available", area_hectares := 2, district := "D",
    ward := "W", village := "V", dataset_name := "d",
    geometry := ⟨true, 1, 20000, ⟨0, 0, 0, 0⟩⟩,
    attributes := fallback_provenance 4 1, created_at := 3, updated_at := 4 }

/-! ### Helper lemmas about the numbering and upsert machinery -/

theorem withRowNumbers_length (s : Nat) (l : List α) :
    (withRowNumbers s l).length = l.length := by
  induction l generalizing s with
  | nil => rfl
  | cons a as ih => simp [withRowNumbers, ih]

theorem withRowNumbers_getElem? (s : Nat) (l : List α) (i : Nat) :
    (withRowNumbers s l)[i]? = l[i]?.map (fun a => (s + i, a)) := by
  induction l generalizing s i with
  | nil => simp [withRowNumbers]
  | cons a as ih =>
      cases i with
      | zero => simp [withRowNumbers]
      | succ j =>
          have := ih (s + 1) j
          simpa [withRowNumbers, Nat.add_comm, Nat.add_assoc, Nat.add_left_comm] using this

theorem qdivNat_eq_div (q : ℚ) (n : Nat) : qdivNat q n = q / (n : ℚ) := by
  unfold qdivNat
  rw [Rat.mkRat_eq_div]
  push_cast
  rw [← div_div, Rat.num_div_den]

theorem round4_eq_floor (q : ℚ) : round4 q = ((⌊q * 10000 + 1 / 2⌋ : ℤ) : ℚ) / 10000 := by
  have hnum : (q.num : ℚ) = q * (q.den : ℚ) := by rw [mul_comm, ← Rat.den_mul_eq_num]
  have hden : ((q.den : ℚ)) ≠ 0 := Nat.cast_ne_zero.mpr q.den_nz
  have harg : q * 10000 + 1 / 2 =
      ((q.num * 20000 + (q.den : Int) : ℤ) : ℚ) / ((2 * q.den : ℕ) : ℚ) := by
    push_cast
    field_simp
    rw [hnum]
    ring
  have hfloor : ⌊q * 10000 + 1 / 2⌋ = (q.num * 20000 + (q.den : Int)) / ((2 * q.den : ℕ) : ℤ) := by
    rw [harg]
    exact Rat.floor_intCast_div_natCast _ _
  unfold round4
  rw [Rat.mkRat_eq_div, hfloor]
  push_cast
  ring

theorem has_code_iff (table : List LandPlot) (c : String) :
    has_code table c = true ↔ c ∈ table.map LandPlot.plot_code := by
  simp only [has_code, List.any_eq_true, List.mem_map, beq_iff_eq]

theorem conflict_update_frame (now : Nat) (p q : LandPlot) :
    frame_eq q (if q.plot_code == p.plot_code then
      { q with attributes := p.attributes, updated_at := now } else q) := by
  cases h : q.plot_code == p.plot_code
  · rw [if_neg (by simp [h])]
    exact ⟨rfl, rfl, rfl, rfl, rfl, rfl, rfl, rfl, rfl⟩
  · rw [if_pos (by simp [h])]
    exact ⟨rfl, rfl, rfl, rfl, rfl, rfl, rfl, rfl, rfl⟩

theorem map_code_upsert_row (now : Nat) (t : List LandPlot) (p : LandPlot) :
    (upsert_row now t p).map LandPlot.plot_code =
      if has_code t p.plot_code then t.map LandPlot.plot_code
      else t.map LandPlot.plot_code ++ [p.plot_code] := by
  unfold upsert_row
  by_cases h : has_code t p.plot_code
  · simp only [h, if_true, List.map_map]
    refine List.map_congr_left (fun q _ => ?_)
    exact (conflict_update_frame now p q).1
  · simp [h]

theorem length_upsert_row_of_code (now : Nat) (t : List LandPlot) (p : LandPlot)
    (h : has_code t p.plot_code = true) : (upsert_row now t p).length = t.length := by
  simp [upsert_row, h]

theorem mem_code_upsert_row (now : Nat) (t : List LandPlot) (p : LandPlot) (c : String)
    (h : c ∈ t.map LandPlot.plot_code) :
    c ∈ (upsert_row now t p).map LandPlot.plot_code := by
  rw [map_code_upsert_row]
  by_cases hc : has_code t p.plot_code
  · rw [if_pos hc]; exact h
  · rw [if_neg hc]; exact List.mem_append.mpr (Or.inl h)

theorem mem_code_foldl (now : Nat) (rows : List LandPlot) :
    ∀ t c, c ∈ t.map LandPlot.plot_code →
      c ∈ (rows.foldl (upsert_row now) t).map LandPlot.plot_code := by
  induction rows with
  | nil => intro t c h; simpa using h
  | cons r rest ih =>
      intro t c h
      rw [List.foldl_cons]
      exact ih (upsert_row now t r) c (mem_code_upsert_row now t r c h)

theorem codes_foldl_subset (now : Nat) (rows : List LandPlot) :
    ∀ t c, c ∈ rows.map LandPlot.plot_code →
      c ∈ (rows.foldl (upsert_row now) t).map LandPlot.plot_code := by
  induction rows with
  | nil => intro t c h; simp at h
  | cons r rest ih =>
      intro t c h
      rw [List.foldl_cons]
      rcases List.mem_cons.mp h with hc | hc
      · refine mem_code_foldl now rest (upsert_row now t r) c ?_
        rw [map_code_upsert_row]
        by_cases hp : has_code t r.plot_code
        · rw [if_pos hp]
          subst hc
          exact (has_code_iff t r.plot_code).mp hp
        · rw [if_neg hp]
          exact List.mem_append.mpr (Or.inr (by simp [hc]))
      · exact ih (upsert_row now t r) c hc

theorem codes_of_foldl (now : Nat) (rows : List LandPlot) :
    ∀ t c, c ∈ (rows.foldl (upsert_row now) t).map LandPlot.plot_code →
      c ∈ t.map LandPlot.plot_code ∨ c ∈ rows.map LandPlot.plot_code := by
  induction rows with
  | nil => intro t c h; left; simpa using h
  | cons r rest ih =>
      intro t c h
      rw [List.foldl_cons] at h
      rcases ih (upsert_row now t r) c h with hc | hc
      · rw [map_code_upsert_row] at hc
        by_cases hp : has_code t r.plot_code
        · rw [if_pos hp] at hc
          exact Or.inl hc
        · rw [if_neg hp] at hc
          rcases List.mem_append.mp hc with hc2 | hc2
          · exact Or.inl hc2
          · right
            simp only [List.mem_singleton] at hc2
            simp [hc2]
      · right; simp [hc]

theorem length_foldl_of_codes (now : Nat) (rows t : List LandPlot)
    (h : ∀ c ∈ rows.map LandPlot.plot_code, c ∈ t.map LandPlot.plot_code) :
    (rows.foldl (upsert_row now) t).length = t.length := by
  induction rows generalizing t with
  | nil => rfl
  | cons r rest ih =>
      have hr : has_code t r.plot_code = true :=
        (has_code_iff t r.plot_code).mpr (h r.plot_code (by simp))
      have hcodes : (upsert_row now t r).map LandPlot.plot_code = t.map LandPlot.plot_code := by
        rw [map_code_upsert_row]; simp [hr]
      have := ih (upsert_row now t r) (fun c hc => by
        rw [hcodes]; exact h c (by simp [hc]))
      rw [List.foldl_cons, this, length_upsert_row_of_code now t r hr]

theorem has_code_eq_false_iff (table : List LandPlot) (c : String) :
    has_code table c = false ↔ ∀ q ∈ table, q.plot_code ≠ c := by
  simp only [has_code, List.any_eq_false, beq_iff_eq]

theorem frame_eq_refl (p : LandPlot) : frame_eq p p :=
  ⟨rfl, rfl, rfl, rfl, rfl, rfl, rfl, rfl, rfl⟩

theorem frame_eq_trans {a b c : LandPlot} (h1 : frame_eq a b) (h2 : frame_eq b c) :
    frame_eq a c := by
  obtain ⟨e1, e2, e3, e4, e5, e6, e7, e8, e9⟩ := h1
  obtain ⟨f1, f2, f3, f4, f5, f6, f7, f8, f9⟩ := h2
  exact ⟨f1.trans e1, f2.trans e2, f3.trans e3, f4.trans e4, f5.trans e5,
    f6.trans e6, f7.trans e7, f8.trans e8, f9.trans e9⟩

theorem mem_upsert_of_code_ne (now : Nat) (t : List LandPlot) (r q : LandPlot)
    (hq : q ∈ upsert_row now t r) (hne : q.plot_code ≠ r.plot_code) : q ∈ t := by
  unfold upsert_row at hq
  by_cases hp : has_code t r.plot_code
  · rw [if_pos hp] at hq
    obtain ⟨q0, hq0, hmap⟩ := List.mem_map.mp hq
    by_cases hc : q0.plot_code == r.plot_code
    · rw [if_pos hc] at hmap
      exfalso
      apply hne
      rw [← hmap]
      exact eq_of_beq hc
    · rw [if_neg hc] at hmap
      rw [← hmap]
      exact hq0
  · rw [if_neg hp] at hq
    rcases List.mem_append.mp hq with h | h
    · exact h
    · exact absurd (by simp_all) hne

theorem mem_foldl_of_untouched (now : Nat) (rows : List LandPlot) :
    ∀ t q, q ∈ rows.foldl (upsert_row now) t →
      q.plot_code ∉ rows.map LandPlot.plot_code → q ∈ t := by
  induction rows with
  | nil => intro t q h _; simpa using h
  | cons r rest ih =>
      intro t q h hnc
      rw [List.foldl_cons] at h
      have hnc' : q.plot_code ∉ rest.map LandPlot.plot_code := fun hc => hnc (by simp [hc])
      have hne : q.plot_code ≠ r.plot_code := fun hc => hnc (by simp [hc])
      exact mem_upsert_of_code_ne now t r q (ih (upsert_row now t r) q h hnc') hne

theorem foldl_upsert_updated_at (now : Nat) (rows : List LandPlot)
    (hall : ∀ r ∈ rows, r.updated_at = now) :
    ∀ t q, q ∈ rows.foldl (upsert_row now) t →
      q.plot_code ∈ rows.map LandPlot.plot_code → q.updated_at = now := by
  induction rows with
  | nil => intro t q _ hc; simp at hc
  | cons r rest ih =>
      intro t q h hc
      rw [List.foldl_cons] at h
      by_cases hrest : q.plot_code ∈ rest.map LandPlot.plot_code
      · exact ih (fun s hs => hall s (by simp [hs])) (upsert_row now t r) q h hrest
      · have hcr : q.plot_code = r.plot_code := by
          rw [List.map_cons] at hc
          rcases List.mem_cons.mp hc with h1 | h1
          · exact h1
          · exact absurd h1 hrest
        have hq : q ∈ upsert_row now t r :=
          mem_foldl_of_untouched now rest (upsert_row now t r) q h hrest
        unfold upsert_row at hq
        by_cases hp : has_code t r.plot_code
        · rw [if_pos hp] at hq
          obtain ⟨q0, _, hmap⟩ := List.mem_map.mp hq
          by_cases hcq : q0.plot_code == r.plot_code
          · rw [if_pos hcq] at hmap
            rw [← hmap]
          · rw [if_neg hcq] at hmap
            exfalso
            exact hcq (by rw [hmap, hcr]; exact beq_self_eq_true r.plot_code)
        · rw [if_neg hp] at hq
          rcases List.mem_append.mp hq with h1 | h1
          · exfalso
            exact (has_code_eq_false_iff t r.plot_code).mp (by simpa using hp) q h1 hcr
          · have : q = r := by simpa using h1
            rw [this]
            exact hall r (by simp)

theorem foldl_upsert_origin (now : Nat) (rows : List LandPlot) :
    ∀ t q, q ∈ rows.foldl (upsert_row now) t →
      (∃ q0 ∈ t, frame_eq q0 q) ∨ (∃ r ∈ rows, frame_eq r q) := by
  induction rows with
  | nil => intro t q h; exact Or.inl ⟨q, by simpa using h, frame_eq_refl q⟩
  | cons r rest ih =>
      intro t q h
      rw [List.foldl_cons] at h
      rcases ih (upsert_row now t r) q h with ⟨q0, hq0, hf⟩ | ⟨s, hs, hf⟩
      · unfold upsert_row at hq0
        by_cases hp : has_code t r.plot_code
        · rw [if_pos hp] at hq0
          obtain ⟨q1, hq1, hmap⟩ := List.mem_map.mp hq0
          refine Or.inl ⟨q1, hq1, frame_eq_trans ?_ hf⟩
          rw [← hmap]
          exact conflict_update_frame now r q1
        · rw [if_neg hp] at hq0
          rcases List.mem_append.mp hq0 with h1 | h1
          · exact Or.inl ⟨q0, h1, hf⟩
          · have : q0 = r := by simpa using h1
            exact Or.inr ⟨r, by simp, by rw [← this]; exact hf⟩
      · exact Or.inr ⟨s, by simp [hs], hf⟩

theorem nodup_codes_upsert (now : Nat) (t : List LandPlot) (p : LandPlot)
    (h : (t.map LandPlot.plot_code).Nodup) :
    ((upsert_row now t p).map LandPlot.plot_code).Nodup := by
  rw [map_code_upsert_row]
  by_cases hp : has_code t p.plot_code
  · rwa [if_pos hp]
  · rw [if_neg hp]
    rw [List.nodup_append]
    refine ⟨h, List.nodup_singleton _, ?_⟩
    intro c hc hc2
    simp only [List.mem_singleton] at hc2
    subst hc2
    exact hp ((has_code_iff t p.plot_code).mpr hc)

theorem nodup_codes_foldl (now : Nat) (rows : List LandPlot) :
    ∀ t, (t.map LandPlot.plot_code).Nodup →
      ((rows.foldl (upsert_row now) t).map LandPlot.plot_code).Nodup := by
  induction rows with
  | nil => intro t h; simpa using h
  | cons r rest ih =>
      intro t h
      rw [List.foldl_cons]
      exact ih (upsert_row now t r) (nodup_codes_upsert now t r h)

theorem length_foldl_upsert_lt (now : Nat) (rows : List LandPlot)
    (hdup : ¬ (rows.map LandPlot.plot_code).Nodup) :
    (rows.foldl (upsert_row now) []).length < rows.length := by
  set F := rows.foldl (upsert_row now) [] with hF
  have hnd : (F.map LandPlot.plot_code).Nodup :=
    nodup_codes_foldl now rows [] (by simp)
  have hsub : F.map LandPlot.plot_code ⊆ (rows.map LandPlot.plot_code).dedup := by
    intro c hc
    rw [List.mem_dedup]
    rcases codes_of_foldl now rows [] c hc with h1 | h1
    · simp at h1
    · exact h1
  have h1 : (F.map LandPlot.plot_code).length ≤ (rows.map LandPlot.plot_code).dedup.length :=
    (List.subperm_of_subset hnd hsub).length_le
  have h2 : (rows.map LandPlot.plot_code).dedup.length < (rows.map LandPlot.plot_code).length := by
    rcases Nat.lt_or_ge (rows.map LandPlot.plot_code).dedup.length
      (rows.map LandPlot.plot_code).length with h | h
    · exact h
    · exfalso
      apply hdup
      have heq : (rows.map LandPlot.plot_code).dedup = rows.map LandPlot.plot_code :=
        (List.dedup_sublist _).eq_of_length
          (Nat.le_antisymm ((List.dedup_sublist _).length_le) h)
      rw [← heq]
      exact List.nodup_dedup _
  have h3 : F.length = (F.map LandPlot.plot_code).length := (List.length_map F _).symm
  have h4 : (rows.map LandPlot.plot_code).length = rows.length := List.length_map rows _
  omega

theorem find?_upsert_ledger (L : List ImportRecord) (rec : ImportRecord) :
    (upsert_ledger L rec).find? (fun r => r.dataset_name == rec.dataset_name) = some rec := by
  unfold upsert_ledger
  by_cases h : L.any (fun r => r.dataset_name == rec.dataset_name)
  · rw [if_pos h]
    induction L with
    | nil => simp at h
    | cons r L' ih =>
        by_cases hr : r.dataset_name == rec.dataset_name
        · rw [List.map_cons, if_pos hr]
          exact List.find?_cons_of_pos _ (beq_self_eq_true rec.dataset_name)
        · rw [List.map_cons, if_neg hr]
          rw [List.find?_cons_of_neg _ (by simpa using hr)]
          refine ih ?_
          rcases List.any_eq_true.mp h with ⟨s, hs, hps⟩
          rcases List.mem_cons.mp hs with h1 | h1
          · exact absurd (h1 ▸ hps) hr
          · exact List.any_eq_true.mpr ⟨s, h1, hps⟩
  · rw [if_neg h]
    rw [List.find?_append]
    have hnone : L.find? (fun r => r.dataset_name == rec.dataset_name) = none := by
      rw [List.find?_eq_none]
      intro x hx hpx
      exact h (List.any_eq_true.mpr ⟨x, hx, hpx⟩)
    rw [hnone]
    simp [beq_self_eq_true]

theorem ledger_feature_count_create (L : List ImportRecord) (ds : String)
    (prj cpg : Option String) (dbf fh : List (String × String)) (bbox : Option String)
    (fc now : Nat) :
    ledger_feature_count (create_import_record L ds prj cpg dbf fh bbox fc now) ds = some fc := by
  have h := find?_upsert_ledger L ⟨ds, prj, cpg, dbf, fh, fc, bbox, now⟩
  unfold ledger_feature_count create_import_record
  rw [show (fun r : ImportRecord => r.dataset_name == ds) =
      (fun r : ImportRecord => r.dataset_name ==
        (⟨ds, prj, cpg, dbf, fh, fc, bbox, now⟩ : ImportRecord).dataset_name) from rfl]
  rw [h]
  rfl

theorem stage_fallback_from_env_blind (env env' : Envelope) (feats : List FallbackFeature) :
    ∀ i, (stage_fallback_from env i feats).1 = (stage_fallback_from env' i feats).1 ∧
      (stage_fallback_from env i feats).2.1 = (stage_fallback_from env' i feats).2.1 := by
  induction feats with
  | nil => intro i; exact ⟨rfl, rfl⟩
  | cons f fs ih =>
      intro i
      have h := ih (i + 1)
      cases hsf : stage_feature f <;>
        simp [stage_fallback_from, hsf, h.1, h.2]

theorem foldl_upsert_frame_eq (now : Nat) (rows : List LandPlot) (p : LandPlot) :
    ∀ t, has_code t p.plot_code = true →
      (∀ q ∈ t, q.plot_code = p.plot_code → frame_eq p q) →
      ∀ q ∈ rows.foldl (upsert_row now) t, q.plot_code = p.plot_code → frame_eq p q := by
  induction rows with
  | nil => intro t _ hall q hq; exact hall q (by simpa using hq)
  | cons r rest ih =>
      intro t hin hall
      rw [List.foldl_cons]
      refine ih (upsert_row now t r) ?_ ?_
      · exact (has_code_iff _ _).mpr
          (mem_code_upsert_row now t r p.plot_code ((has_code_iff _ _).mp hin))
      · intro q hq hcode
        unfold upsert_row at hq
        by_cases hp : has_code t r.plot_code
        · rw [if_pos hp] at hq
          obtain ⟨q0, hq0, hmap⟩ := List.mem_map.mp hq
          have hfq0 : frame_eq q0 q := by
            rw [← hmap]
            exact conflict_update_frame now r q0
          have hc0 : q0.plot_code = p.plot_code := hfq0.1.symm ▸ hcode
          exact frame_eq_trans (hall q0 hq0 hc0) hfq0
        · rw [if_neg hp] at hq
          rcases List.mem_append.mp hq with h1 | h1
          · exact hall q h1 hcode
          · exfalso
            have hqr : q = r := by simpa using h1
            have : r.plot_code = p.plot_code := hqr ▸ hcode
            rcases List.any_eq_true.mp hin with ⟨s, hs, hps⟩
            exact (has_code_eq_false_iff t r.plot_code).mp (by simpa using hp) s hs
              (by rw [this]; exact eq_of_beq hps)

theorem insert_select_rows_codes (ds district ward village : String) (now : Nat)
    (staged : List StagedRow) :
    (insert_select_rows ds district ward village now staged).map LandPlot.plot_code =
      import_codes ds staged := by
  unfold insert_select_rows import_codes
  rw [List.map_map]
  rfl

theorem seed_insert_rows_codes (attrCols : List String) (ds district ward village : String)
    (now : Nat) (tmpRows : List ColRow) :
    (seed_insert_rows attrCols ds district ward village now tmpRows).map LandPlot.plot_code =
      seed_codes attrCols tmpRows := by
  unfold seed_insert_rows seed_codes
  rw [List.map_map]
  rfl

theorem insert_select_rows_updated_at (ds district ward village : String) (now : Nat)
    (staged : List StagedRow) :
    ∀ p ∈ insert_select_rows ds district ward village now staged, p.updated_at = now := by
  intro p hp
  obtain ⟨x, _, rfl⟩ := List.mem_map.mp hp
  rfl

theorem insert_select_rows_status (ds district ward village : String) (now : Nat)
    (staged : List StagedRow) :
    ∀ p ∈ insert_select_rows ds district ward village now staged, p.status = "available" := by
  intro p hp
  obtain ⟨x, _, rfl⟩ := List.mem_map.mp hp
  rfl

theorem derive_plot_code_synth (ds : String) (attrs : List (String × Option String)) (seq : Nat)
    (h : ∀ c ∈ plot_code_candidates, attrText attrs c = none) :
    derive_plot_code ds attrs seq = ds ++ "_" ++ lpad (toString seq) 4 "0" := by
  unfold derive_plot_code
  rw [List.findSome?_eq_none_iff.mpr h]

theorem lpad_collision_run (ds district ward village : String) (now : Nat)
    (staged : List StagedRow) (hlen : staged.length = 10000)
    (hpass : ∀ r ∈ staged, passes_filter r = true)
    (hnocode : ∀ r ∈ staged, ∀ c ∈ plot_code_candidates, attrText r.attributes c = none) :
    ((insert_select_rows ds district ward village now staged).map LandPlot.plot_code)[999]? =
      some (ds ++ "_1000") ∧
    ((insert_select_rows ds district ward village now staged).map LandPlot.plot_code)[9999]? =
      some (ds ++ "_1000") ∧
    ¬ ((insert_select_rows ds district ward village now staged).map LandPlot.plot_code).Nodup := by
  have hf : staged.filter passes_filter = staged := List.filter_eq_self.mpr hpass
  have hcodes : (insert_select_rows ds district ward village now staged).map LandPlot.plot_code =
      (withRowNumbers 1 staged).map (fun p => derive_plot_code ds p.2.attributes p.1) := by
    rw [insert_select_rows_codes]
    unfold import_codes
    rw [hf]
  have hidx : ∀ i : Nat, i < 10000 →
      ((insert_select_rows ds district ward village now staged).map LandPlot.plot_code)[i]? =
        some (ds ++ "_" ++ lpad (toString (1 + i)) 4 "0") := by
    intro i hi
    have hib : i < staged.length := by rw [hlen]; exact hi
    rw [hcodes, List.getElem?_map, withRowNumbers_getElem?, List.getElem?_eq_getElem hib]
    simp only [Option.map_some']
    congr 1
    exact derive_plot_code_synth ds _ (1 + i) (hnocode _ (List.getElem_mem hib))
  have lp1 : lpad (toString (1 + 999)) 4 "0" = "1000" := by decide
  have lp2 : lpad (toString (1 + 9999)) 4 "0" = "1000" := by decide
  have hv1 : ((insert_select_rows ds district ward village now staged).map
      LandPlot.plot_code)[999]? = some (ds ++ "_1000") := by
    rw [hidx 999 (by norm_num), lp1, String.append_assoc]
    rfl
  have hv2 : ((insert_select_rows ds district ward village now staged).map
      LandPlot.plot_code)[9999]? = some (ds ++ "_1000") := by
    rw [hidx 9999 (by norm_num), lp2, String.append_assoc]
    rfl
  refine ⟨hv1, hv2, ?_⟩
  intro hnd
  obtain ⟨hb1, he1⟩ := List.getElem?_eq_some.mp hv1
  obtain ⟨hb2, he2⟩ := List.getElem?_eq_some.mp hv2
  have hinj := List.nodup_iff_injective_get.mp hnd
  have : (⟨999, hb1⟩ : Fin _) = ⟨9999, hb2⟩ := by
    apply hinj
    rw [List.get_eq_getElem, List.get_eq_getElem]
    rw [he1, he2]
  simp at this

/-! ### The claims -/

/-- C1 (amended): for every import run, the ledger row written for the
dataset records exactly the number of `land_plots` rows carrying that
dataset_name after the upsert — the count `process_imported_data` returned —
and not the pre-filter staged feature count. -/
theorem claim1_ledger_records_inserted_count
    (ds district ward village : String) (now : Nat) (staged : List StagedRow)
    (prj cpg : Option String) (dbf_schema file_hashes : List (String × String))
    (bbox : Option String) (table : List LandPlot) (ledger : List ImportRecord) :
    ledger_feature_count
      (run_import ds district ward village now staged prj cpg dbf_schema file_hashes bbox table ledger).2 ds =
    some (dataset_count
      (run_import ds district ward village now staged prj cpg dbf_schema file_hashes bbox table ledger).1 ds) :=
  ledger_feature_count_create ledger ds prj cpg dbf_schema file_hashes bbox _ now

/-- C1 (counterexample): a run with 2 staged source features of which 1 is
rejected by the validity check writes feature_count 1 — the inserted count —
into the ledger, refuting the claim that it records the pre-filter count 2. -/
theorem claim1_counterexample :
    [invalid_staged, valid_staged].length = 2 ∧
    ([invalid_staged, valid_staged].filter passes_filter).length = 1 ∧
    ledger_feature_count
      (run_import "d" "D" "W" "V" 5 [invalid_staged, valid_staged]
        none none [] [] none [] []).2 "d" ≠ some 2 ∧
    ledger_feature_count
      (run_import "d" "D" "W" "V" 5 [invalid_staged, valid_staged]
        none none [] [] none [] []).2 "d" = some 1 := by
  decide

/-- C6: a converter-bridge failure (tool absent, non-zero exit, timeout, zero
rows loaded) never raises — `import_with_ogr2ogr` returns a boolean on every
outcome; a failed bridge only lets the fallback decide the run; and the load
stage raises exactly when both strategies have failed. -/
theorem claim6_bridge_failure_is_soft (g : Bool) (o : Ogr2ogrOutcome) (f : Bool) :
    (∃ b, import_with_ogr2ogr o = .ok b) ∧
    (bridge_succeeds g o = false →
      load_staging g o f =
        if f then .ok .fallback
        else .error "Both ogr2ogr and Python fallback import methods failed") ∧
    ((∃ s, load_staging g o f = .ok s) ↔ (bridge_succeeds g o = true ∨ f = true)) := by
  refine ⟨?_, ?_, ?_⟩
  · cases o <;> exact ⟨_, rfl⟩
  · intro h
    simp [load_staging, h]
  · constructor
    · rintro ⟨s, hs⟩
      by_cases hb : bridge_succeeds g o = true
      · exact Or.inl hb
      · by_cases hf : f = true
        · exact Or.inr hf
        · rw [load_staging, if_neg hb, if_neg hf] at hs
          exact absurd hs (by simp)
    · rintro (hb | hf)
      · exact ⟨.bridge, by simp [load_staging, hb]⟩
      · by_cases hb : bridge_succeeds g o = true
        · exact ⟨.bridge, by simp [load_staging, hb]⟩
        · exact ⟨.fallback, by simp [load_staging, hb, hf]⟩

/-- C6 (witness): a timed-out bridge with a working fallback: the bridge
returns a boolean instead of raising, and the run completes via the
fallback. -/
theorem claim6_witness :
    (∃ b, import_with_ogr2ogr .timedOut = .ok b) ∧
    load_staging true .timedOut true = .ok .fallback := by
  refine ⟨(claim6_bridge_failure_is_soft true .timedOut true).1, ?_⟩
  have h := (claim6_bridge_failure_is_soft true .timedOut true).2.1 (by decide)
  simpa using h

/-- C7 (counterexample): all mandatory components present and readable, the
optional prj file present but unreadable: validation nevertheless fails, and
the raised error enumerates no missing mandatory component — refuting the
claim that validation fails only on a missing or unreadable mandatory
sidecar. -/
theorem claim7_counterexample :
    validation_valid ⟨⟨true, true⟩, ⟨true, true⟩, ⟨true, true⟩, ⟨true, false⟩, ⟨true, true⟩⟩ = false ∧
    spec_mandatory_problem ⟨⟨true, true⟩, ⟨true, true⟩, ⟨true, true⟩, ⟨true, false⟩, ⟨true, true⟩⟩ = false ∧
    validation_error ⟨⟨true, true⟩, ⟨true, true⟩, ⟨true, true⟩, ⟨true, false⟩, ⟨true, true⟩⟩ = some [] := by
  decide

/-- C7 (amended): validation fails iff a mandatory component is missing or
any present component — optional ones included — fails the test read; and
when no mandatory component is missing, any raised error enumerates no
component at all. -/
theorem claim7_validation_failure_characterised (fs : ShapefileComponents) :
    ((validation_error fs).isSome = (some_mandatory_missing fs || some_present_unreadable fs)) ∧
    (some_mandatory_missing fs = false →
      validation_error fs = none ∨ validation_error fs = some []) := by
  obtain ⟨⟨a1, a2⟩, ⟨b1, b2⟩, ⟨c1, c2⟩, ⟨d1, d2⟩, ⟨e1, e2⟩⟩ := fs
  cases a1 <;> cases a2 <;> cases b1 <;> cases b2 <;> cases c1 <;> cases c2 <;>
    cases d1 <;> cases d2 <;> cases e1 <;> cases e2 <;> decide

/-- C7 (witness): a missing optional prj file is tolerated: no mandatory
component is missing and validation passes. -/
theorem claim7_witness :
    some_mandatory_missing ⟨⟨true, true⟩, ⟨true, true⟩, ⟨true, true⟩, ⟨false, true⟩, ⟨true, true⟩⟩ = false ∧
    (validation_error ⟨⟨true, true⟩, ⟨true, true⟩, ⟨true, true⟩, ⟨false, true⟩, ⟨true, true⟩⟩ = none ∨
      validation_error ⟨⟨true, true⟩, ⟨true, true⟩, ⟨true, true⟩, ⟨false, true⟩, ⟨true, true⟩⟩ = some []) :=
  ⟨by decide,
   (claim7_validation_failure_characterised
     ⟨⟨true, true⟩, ⟨true, true⟩, ⟨true, true⟩, ⟨false, true⟩, ⟨true, true⟩⟩).2 (by decide)⟩

/-- C9: the post-reprojection bounds test is warn-only: the staged rows and
the per-feature error count do not depend on the sanity envelope at all, and
hence neither does any insertion computed from the staged rows — exactly as
if every bounding box lay inside the envelope. -/
theorem claim9_bounds_check_never_rejects (env env' : Envelope) (feats : List FallbackFeature) :
    (stage_fallback env feats).1 = (stage_fallback env' feats).1 ∧
    (stage_fallback env feats).2.1 = (stage_fallback env' feats).2.1 ∧
    ∀ ds district ward village now table,
      process_imported_data ds district ward village now (stage_fallback env feats).1 table =
        process_imported_data ds district ward village now (stage_fallback env' feats).1 table := by
  have h := stage_fallback_from_env_blind env env' feats 0
  refine ⟨h.1, h.2, fun ds district ward village now table => ?_⟩
  unfold stage_fallback
  rw [h.1]

/-- C2: when a later import run stages a feature colliding on plot_code with
an existing row, conflict resolution touches at most that row's attributes
and updated_at: every row of the resulting table carrying the existing plot
code still agrees with the existing row on plot_code, status, area_hectares,
district, ward, village, dataset_name, geometry and created_at. -/
theorem claim2_conflict_touches_only_attributes
    (ds district ward village : String) (now : Nat) (staged : List StagedRow)
    (table : List LandPlot) (p : LandPlot) (hp : p ∈ table)
    (hnd : (table.map LandPlot.plot_code).Nodup) :
    (∀ q ∈ process_imported_data ds district ward village now staged table,
      q.plot_code = p.plot_code → frame_eq p q) ∧
    (∀ attrCols tmpRows now2, ∃ rest,
      normalize_into_land_plots attrCols ds district ward village now2 tmpRows table =
        table ++ rest) := by
  constructor
  · refine foldl_upsert_frame_eq now _ p table ?_ ?_
    · exact (has_code_iff _ _).mpr (List.mem_map.mpr ⟨p, hp, rfl⟩)
    · intro q hq hcode
      have : q = p := List.inj_on_of_nodup_map hnd hq hp hcode
      rw [this]
      exact frame_eq_refl p
  · intro attrCols tmpRows now2
    exact ⟨_, rfl⟩

/-- C2 (witness): importing a feature carrying the existing code A1 leaves
the stored row's frame unchanged, with only attributes and updated_at
renewed. -/
theorem claim2_witness :
    existing_plot ∈ [existing_plot] ∧
    ([existing_plot].map LandPlot.plot_code).Nodup ∧
    frame_eq existing_plot
      { existing_plot with
          attributes := jsonb_concat [("plot_code", some "A1")] (fallback_provenance 9 0),
          updated_at := 9 } ∧
    (∃ rest, normalize_into_land_plots ["name"] "new" "D1" "W1" "V1" 9 seed_tmp_rows
      [existing_plot] = [existing_plot] ++ rest) := by
  have h := claim2_conflict_touches_only_attributes "new" "D1" "W1" "V1" 9 [conflicting_staged]
    [existing_plot] existing_plot (by decide) (by decide)
  exact ⟨by decide, by decide, h.1 _ (by decide) (by decide), h.2 ["name"] seed_tmp_rows 9⟩

/-- C3: re-running an identical import leaves the total row count unchanged
under both conflict policies found in the code: the seed-path
skip-on-conflict insert adds nothing the second time (the table is exactly
unchanged), and the enhanced-path update-on-conflict run keeps the count
while stamping every matched row's updated_at with the later clock. -/
theorem claim3_rerun_idempotent
    (attrCols : List String) (sds sdt swd svl : String)
    (ds district ward village : String)
    (now1 now2 : Nat) (tmpRows : List ColRow) (staged : List StagedRow)
    (table0 table : List LandPlot) (h12 : now1 < now2) :
    (normalize_into_land_plots attrCols sds sdt swd svl now2 tmpRows
        (normalize_into_land_plots attrCols sds sdt swd svl now1 tmpRows table0) =
      normalize_into_land_plots attrCols sds sdt swd svl now1 tmpRows table0) ∧
    ((process_imported_data ds district ward village now2 staged
        (process_imported_data ds district ward village now1 staged table)).length =
      (process_imported_data ds district ward village now1 staged table).length) ∧
    (∀ q ∈ process_imported_data ds district ward village now2 staged
        (process_imported_data ds district ward village now1 staged table),
      q.plot_code ∈ import_codes ds staged → now1 < q.updated_at ∧ q.updated_at = now2) := by
  have hcode1 : ∀ c ∈ import_codes ds staged,
      c ∈ (process_imported_data ds district ward village now1 staged table).map
        LandPlot.plot_code := by
    intro c hc
    unfold process_imported_data
    refine codes_foldl_subset now1 _ table c ?_
    rw [insert_select_rows_codes]
    exact hc
  refine ⟨?_, ?_, ?_⟩
  · set t1 := normalize_into_land_plots attrCols sds sdt swd svl now1 tmpRows table0 with ht1
    have hmem : ∀ c ∈ seed_codes attrCols tmpRows, has_code t1 c = true := by
      intro c hc
      rw [← seed_insert_rows_codes attrCols sds sdt swd svl now1 tmpRows] at hc
      obtain ⟨r1, hr1, rfl⟩ := List.mem_map.mp hc
      rw [has_code_iff]
      by_cases h0 : has_code table0 r1.plot_code = true
      · rcases List.mem_map.mp ((has_code_iff _ _).mp h0) with ⟨q0, hq0, hq0c⟩
        exact List.mem_map.mpr ⟨q0, by
          rw [ht1]
          unfold normalize_into_land_plots insert_skip_conflict
          exact List.mem_append.mpr (Or.inl hq0), hq0c⟩
      · refine List.mem_map.mpr ⟨r1, ?_, rfl⟩
        rw [ht1]
        unfold normalize_into_land_plots insert_skip_conflict
        refine List.mem_append.mpr (Or.inr ?_)
        refine List.mem_filter.mpr ⟨hr1, ?_⟩
        simp [Bool.eq_false_iff.mpr h0]
    show normalize_into_land_plots attrCols sds sdt swd svl now2 tmpRows t1 = t1
    unfold normalize_into_land_plots insert_skip_conflict
    have hnil : (seed_insert_rows attrCols sds sdt swd svl now2 tmpRows).filter
        (fun r => !(has_code t1 r.plot_code)) = [] := by
      rw [List.filter_eq_nil_iff]
      intro r hr
      have : r.plot_code ∈ seed_codes attrCols tmpRows := by
        rw [← seed_insert_rows_codes attrCols sds sdt swd svl now2 tmpRows]
        exact List.mem_map.mpr ⟨r, hr, rfl⟩
      simp [hmem r.plot_code this]
    rw [hnil, List.append_nil]
  · unfold process_imported_data
    refine length_foldl_of_codes now2 _ _ ?_
    intro c hc
    rw [insert_select_rows_codes] at hc
    exact hcode1 c hc
  · intro q hq hc
    have h2 : q.updated_at = now2 := by
      unfold process_imported_data at hq
      refine foldl_upsert_updated_at now2 _ (insert_select_rows_updated_at _ _ _ _ _ _) _ q hq ?_
      rw [insert_select_rows_codes]
      exact hc
    exact ⟨h2 ▸ h12, h2⟩

/-- C3 (witness): one valid feature imported at time 3 and identically
re-imported at time 4: the seed path leaves the table untouched and the
enhanced path keeps the count while advancing updated_at to 4. -/
theorem claim3_witness :
    (3 : Nat) < 4 ∧
    (normalize_into_land_plots ["name"] "d" "D" "W" "V" 4 seed_tmp_rows
        (normalize_into_land_plots ["name"] "d" "D" "W" "V" 3 seed_tmp_rows []) =
      normalize_into_land_plots ["name"] "d" "D" "W" "V" 3 seed_tmp_rows []) ∧
    ((process_imported_data "d" "D" "W" "V" 4 [valid_staged]
        (process_imported_data "d" "D" "W" "V" 3 [valid_staged] [])).length =
      (process_imported_data "d" "D" "W" "V" 3 [valid_staged] []).length) ∧
    (3 < c3_plot.updated_at ∧ c3_plot.updated_at = 4) := by
  have h := claim3_rerun_idempotent ["name"] "d" "D" "W" "V" "d" "D" "W" "V" 3 4
    seed_tmp_rows [valid_staged] [] [] (by decide)
  exact ⟨by decide, h.1, h.2.1, h.2.2 c3_plot (by decide) (by decide)⟩

/-- C5: a staged row is considered for insertion iff its geometry is
non-null, topologically valid and of positive area; every proposed row
carries status hard-set to `available`; and every row whose plot code was not
in the table before the run — every newly inserted row — has status
`available`. -/
theorem claim5_filter_and_status
    (ds district ward village : String) (now : Nat) (staged : List StagedRow)
    (table : List LandPlot) :
    (∀ r ∈ staged, passes_filter r = true ↔
      ∃ g, r.geometry = some g ∧ g.valid = true ∧ 0 < g.planar_area) ∧
    (∀ p ∈ insert_select_rows ds district ward village now staged, p.status = "available") ∧
    (∀ q ∈ process_imported_data ds district ward village now staged table,
      has_code table q.plot_code = false → q.status = "available") := by
  refine ⟨?_, insert_select_rows_status ds district ward village now staged, ?_⟩
  · intro r _
    cases hg : r.geometry with
    | none => simp [passes_filter, hg]
    | some g => simp [passes_filter, hg, Bool.and_eq_true, decide_eq_true_eq]
  · intro q hq hc
    unfold process_imported_data at hq
    rcases foldl_upsert_origin now _ table q hq with ⟨q0, hq0, hf⟩ | ⟨r, hr, hf⟩
    · exfalso
      have : q.plot_code = q0.plot_code := hf.1
      rw [has_code_eq_false_iff] at hc
      exact hc q0 hq0 this.symm
    · rw [hf.2.1]
      exact insert_select_rows_status ds district ward village now staged r hr

/-- C5 (witness): a run over one invalid and one valid staged feature: the
filter keeps exactly the valid one and the newly inserted row has status
`available`. -/
theorem claim5_witness :
    (passes_filter invalid_staged = true ↔
      ∃ g, invalid_staged.geometry = some g ∧ g.valid = true ∧ 0 < g.planar_area) ∧
    (passes_filter valid_staged = true ↔
      ∃ g, valid_staged.geometry = some g ∧ g.valid = true ∧ 0 < g.planar_area) ∧
    (∀ q ∈ process_imported_data "d" "D" "W" "V" 5 [invalid_staged, valid_staged] [],
      has_code [] q.plot_code = false → q.status = "available") := by
  have h := claim5_filter_and_status "d" "D" "W" "V" 5 [invalid_staged, valid_staged] []
  exact ⟨h.1 invalid_staged (by decide), h.1 valid_staged (by decide), h.2.2⟩

/-- C8: after a committed (non-failing) upsert every table row has
area_hectares > 0 whenever the pre-existing rows satisfied the check
constraint; and a staged row with no recognized source area field gets
area_hectares equal to the geodesic area in square metres over 10000,
rounded to 4 decimals. -/
theorem claim8_area_positive_and_geodesic_fallback :
    (∀ ds district ward village now staged table table',
      process_imported_data_checked ds district ward village now staged table = .ok table' →
      (∀ p ∈ table, 0 < p.area_hectares) →
      ∀ p ∈ table', 0 < p.area_hectares) ∧
    (∀ attrs g, (∀ k ∈ area_candidates, area_from_key attrs k = none) →
      derive_area_hectares attrs g = round4 (g.geodesic_area / 10000)) := by
  constructor
  · intro ds district ward village now staged table table' h hpos p hp
    unfold process_imported_data_checked at h
    by_cases hall : (insert_select_rows ds district ward village now staged).all
        (fun p => decide (0 < p.area_hectares)) = true
    · rw [if_pos hall] at h
      have htab : (insert_select_rows ds district ward village now staged).foldl
          (upsert_row now) table = table' := by
        injection h
      rw [← htab] at hp
      rcases foldl_upsert_origin now _ table p hp with ⟨q0, hq0, hf⟩ | ⟨r, hr, hf⟩
      · rw [hf.2.2.1]
        exact hpos q0 hq0
      · rw [hf.2.2.1]
        exact of_decide_eq_true (List.all_eq_true.mp hall r hr)
    · rw [if_neg hall] at h
      exact absurd h (by simp)
  · intro attrs g hnone
    unfold derive_area_hectares
    rw [List.findSome?_eq_none_iff.mpr hnone]
    rw [qdivNat_eq_div]
    norm_num

/-- C8 (witness): importing the valid feature (geodesic area 20000 m², no
area attribute) into an empty table commits and yields a positive
area_hectares of 2.0000 via the geodesic fallback. -/
theorem claim8_witness :
    process_imported_data_checked "d" "D" "W" "V" 7 [valid_staged] [] = .ok [c8_result_plot] ∧
    (0 < c8_result_plot.area_hectares) ∧
    (∀ k ∈ area_candidates, area_from_key [] k = none) ∧
    derive_area_hectares [] ⟨true, 1, 20000, ⟨0, 0, 0, 0⟩⟩ = round4 ((20000 : ℚ) / 10000) := by
  refine ⟨by decide, ?_, by decide, ?_⟩
  · exact claim8_area_positive_and_geodesic_fallback.1 "d" "D" "W" "V" 7 [valid_staged] []
      [c8_result_plot] (by decide) (by decide) c8_result_plot (by decide)
  · exact claim8_area_positive_and_geodesic_fallback.2 [] ⟨true, 1, 20000, ⟨0, 0, 0, 0⟩⟩
      (by decide)

/-- C4 (counterexample): with attributes binding `plot_code` to the empty
string and `code` to `A1`, the claimed rule — first candidate with a
non-empty value, probed case-insensitively — yields `A1`, but the code's
COALESCE takes the first non-null candidate and yields the empty string. -/
theorem claim4_counterexample :
    derive_plot_code "survey1" [("plot_code", some ""), ("code", some "A1")] 1 = "" ∧
    spec_plot_code "survey1" [("plot_code", some ""), ("code", some "A1")] 1 = "A1" ∧
    derive_plot_code "survey1" [("plot_code", some ""), ("code", some "A1")] 1 ≠
      spec_plot_code "survey1" [("plot_code", some ""), ("code", some "A1")] 1 := by
  decide

/-- C4 (amended): the jsonb path probes its fixed candidate key list
case-sensitively with COALESCE semantics — the first key bound to a non-null
value wins even when that value is the empty string — and only when every
candidate key is absent or null does it synthesize
`<dataset>_<LPAD(sequence, 4, 0)>` in staging order; so a dataset with three
staged features and no candidate key yields plot codes `<ds>_0001`,
`<ds>_0002`, `<ds>_0003` in staging order. -/
theorem claim4_plot_code_derivation
    (ds district ward village : String) (now : Nat) (staged : List StagedRow)
    (hpass : ∀ r ∈ staged, passes_filter r = true)
    (hnocode : ∀ r ∈ staged, ∀ c ∈ plot_code_candidates, attrText r.attributes c = none)
    (h3 : staged.length = 3) :
    ((insert_select_rows ds district ward village now staged).map LandPlot.plot_code =
      [ds ++ "_0001", ds ++ "_0002", ds ++ "_0003"]) ∧
    (∀ attrs seq, attrText attrs "plot_code" = some "" →
      derive_plot_code ds attrs seq = "") := by
  constructor
  · obtain ⟨a, b, c, rfl⟩ := List.length_eq_three.mp h3
    have hf : [a, b, c].filter passes_filter = [a, b, c] := List.filter_eq_self.mpr hpass
    rw [insert_select_rows_codes]
    unfold import_codes
    rw [hf]
    show [derive_plot_code ds a.attributes 1, derive_plot_code ds b.attributes 2,
      derive_plot_code ds c.attributes 3] = _
    rw [derive_plot_code_synth ds a.attributes 1 (hnocode a (by simp)),
      derive_plot_code_synth ds b.attributes 2 (hnocode b (by simp)),
      derive_plot_code_synth ds c.attributes 3 (hnocode c (by simp))]
    have l1 : lpad (toString 1) 4 "0" = "0001" := by decide
    have l2 : lpad (toString 2) 4 "0" = "0002" := by decide
    have l3 : lpad (toString 3) 4 "0" = "0003" := by decide
    rw [l1, l2, l3, String.append_assoc, String.append_assoc, String.append_assoc]
    rfl
  · intro attrs seq h
    unfold derive_plot_code
    have hfs : plot_code_candidates.findSome? (attrText attrs) = some "" := by
      unfold plot_code_candidates
      rw [List.findSome?_cons, h]
    rw [hfs]

/-- C4 (witness): dataset survey1 with three staged features and no
plot-code candidate key yields survey1_0001, survey1_0002, survey1_0003; an
empty-string plot_code attribute wins over a later non-empty candidate. -/
theorem claim4_witness :
    (∀ r ∈ survey_staged, passes_filter r = true) ∧
    survey_staged.length = 3 ∧
    ((insert_select_rows "survey1" "D" "W" "V" 6 survey_staged).map LandPlot.plot_code =
      ["survey1_0001", "survey1_0002", "survey1_0003"]) ∧
    derive_plot_code "survey1" [("plot_code", some ""), ("code", some "A1")] 1 = "" := by
  have h := claim4_plot_code_derivation "survey1" "D" "W" "V" 6 survey_staged
    (by decide) (by decide) (by decide)
  exact ⟨by decide, by decide, h.1,
    h.2 [("plot_code", some ""), ("code", some "A1")] 1 (by decide)⟩

/-- C10 (counterexample): 10000 identical attribute-free valid features:
sequences 1000 and 10000 both synthesize `d_1000`, but the later feature
does not collapse into the earlier row — the one `INSERT ... ON CONFLICT DO
UPDATE` statement would affect the same row twice, PostgreSQL raises a
cardinality violation, and the import fails with the table rolled back. -/
theorem claim10_counterexample :
    ((insert_select_rows "d" "D" "W" "V" 0 (List.replicate 10000 plain_staged)).map
      LandPlot.plot_code)[999]? = some ("d" ++ "_1000") ∧
    ((insert_select_rows "d" "D" "W" "V" 0 (List.replicate 10000 plain_staged)).map
      LandPlot.plot_code)[9999]? = some ("d" ++ "_1000") ∧
    process_imported_data_stmt "d" "D" "W" "V" 0 (List.replicate 10000 plain_staged) [] =
      .error "ON CONFLICT DO UPDATE command cannot affect row a second time" := by
  have h := lpad_collision_run "d" "D" "W" "V" 0 (List.replicate 10000 plain_staged)
    (List.length_replicate 10000 plain_staged)
    (fun r hr => by rw [List.eq_of_mem_replicate hr]; decide)
    (fun r hr => by rw [List.eq_of_mem_replicate hr]; decide)
  refine ⟨h.1, h.2.1, ?_⟩
  unfold process_imported_data_stmt
  rw [if_neg h.2.2]

/-- C10 (amended): LPAD pads the synthesized sequence number to width 4 and
truncates longer numbers, so in a run with 10000 staged features and no
plot-code field the features at sequence 1000 and sequence 10000 receive the
same synthesized plot code; the one `INSERT ... ON CONFLICT DO UPDATE`
statement then affects the same row twice, so whatever the prior table
contents, PostgreSQL raises a cardinality violation, the run rolls back and
fails, and neither feature produces a row — rather than the later feature
collapsing into the earlier one. -/
theorem claim10_lpad_truncation_aborts
    (ds district ward village : String) (now : Nat) (staged : List StagedRow)
    (hlen : staged.length = 10000)
    (hpass : ∀ r ∈ staged, passes_filter r = true)
    (hnocode : ∀ r ∈ staged, ∀ c ∈ plot_code_candidates, attrText r.attributes c = none) :
    ((insert_select_rows ds district ward village now staged).map LandPlot.plot_code)[999]? =
      some (ds ++ "_1000") ∧
    ((insert_select_rows ds district ward village now staged).map LandPlot.plot_code)[9999]? =
      some (ds ++ "_1000") ∧
    ∀ table, process_imported_data_stmt ds district ward village now staged table =
      .error "ON CONFLICT DO UPDATE command cannot affect row a second time" := by
  have h := lpad_collision_run ds district ward village now staged hlen hpass hnocode
  refine ⟨h.1, h.2.1, fun table => ?_⟩
  unfold process_imported_data_stmt
  rw [if_neg h.2.2]

/-- C10 (witness): the amended behavior at the concrete run of 10000
attribute-free valid features against the empty table: duplicate code
`d_1000` at sequences 1000 and 10000, and the statement fails with the
cardinality-violation error. -/
theorem claim10_witness :
    ((insert_select_rows "d" "D" "W" "V" 0 (List.replicate 10000 plain_staged)).map
      LandPlot.plot_code)[999]? = some ("d" ++ "_1000") ∧
    ((insert_select_rows "d" "D" "W" "V" 0 (List.replicate 10000 plain_staged)).map
      LandPlot.plot_code)[9999]? = some ("d" ++ "_1000") ∧
    process_imported_data_stmt "d" "D" "W" "V" 0 (List.replicate 10000 plain_staged) [] =
      .error "ON CONFLICT DO UPDATE command cannot affect row a second time" := by
  have h := claim10_lpad_truncation_aborts "d" "D" "W" "V" 0 (List.replicate 10000 plain_staged)
    (List.length_replicate 10000 plain_staged)
    (fun r hr => by rw [List.eq_of_mem_replicate hr]; decide)
    (fun r hr => by rw [List.eq_of_mem_replicate hr]; decide)
  exact ⟨h.1, h.2.1, h.2.2 []⟩

end LandHub
